import Mathlib

set_option autoImplicit false

/-! Verification of the OrthoSlicer module (nipy/neurospin/viz/ortho_slicer.py).

The Python class OrthoSlicer keeps, per view, a list of content bounding
boxes, lays the three views out side by side with widths proportional to
their content widths, and issues drawing commands to matplotlib.  We embed
the class shallowly: its mutable state becomes the structure OrthoState,
each method becomes a function from the state (and the method's arguments)
to the resulting state together with the list of drawing commands it issued
before returning or failing, and every Python exception becomes an error
value of type PyError.  Numpy floats are modelled as rationals.

The helpers coord_transform, get_bounds and get_mask_bounds live in
nipy/neurospin/viz/coord_tools.py, which is not part of the sources at
hand; they are modelled from the specification's description of the
coordinate-transform utility and are marked as such below.
-/

attribute [local semireducible] Rat.add Rat.mul Rat.sub Rat.inv Rat.ofScientific

/-- Decidable equality for Except, for evaluating the embedding at
concrete inputs. -/
instance exceptDecidableEq {ε α : Type} [DecidableEq ε] [DecidableEq α] :
    DecidableEq (Except ε α) := fun a b =>
  match a, b with
  | .error e, .error f =>
    if h : e = f then .isTrue (by rw [h])
    else .isFalse (by intro hc; injection hc; contradiction)
  | .error _, .ok _ => .isFalse (by intro hc; exact Except.noConfusion hc)
  | .ok _, .error _ => .isFalse (by intro hc; exact Except.noConfusion hc)
  | .ok u, .ok v =>
    if h : u = v then .isTrue (by rw [h])
    else .isFalse (by intro hc; injection hc; contradiction)

/-- Errors a call can raise.  All constructors except the last correspond
to exceptions the Python runtime or numpy actually raise; emptyContentError
is the explicit checked error named by the specification's error taxonomy,
needed here only to state the claims that mention it. -/
inductive PyError where
  | valueError
  | indexError
  | unboundLocalError
  | linAlgError
  | zeroDivisionError
  | emptyContentError
  deriving DecidableEq, Repr

/-- The three views.  The source keys them 'x', 'y' and 'z'; the
specification calls them sagittal, coronal and axial, in that order. -/
inductive View where
  | x
  | y
  | z
  deriving DecidableEq, Repr

/-- One content-bounds record entry (xmin, xmax, ymin, ymax), as appended
by plot_map to self._object_bounds[ax].  The same shape of tuple is what
_get_object_bounds returns. -/
structure Entry where
  xmin : ℚ
  xmax : ℚ
  ymin : ℚ
  ymax : ℚ
  deriving DecidableEq, Repr

/-- The mutable state of an OrthoSlicer instance: the frame rectangle
(x0, y0, x1, y1) stored in __init__, the cut coordinates (x, y, z) stored
in __init__, and the per-view content-bounds record self._object_bounds. -/
structure OrthoState where
  rect : ℚ × ℚ × ℚ × ℚ
  cut_coords : ℚ × ℚ × ℚ
  object_bounds : View → List Entry

/-- Fold of max over a list seeded with a first element; arr.max() on the
non-empty numpy array with entries a :: l. -/
def npmax (a : ℚ) (l : List ℚ) : ℚ := l.foldl max a

/-- Fold of min over a list seeded with a first element; arr.min() on the
non-empty numpy array with entries a :: l. -/
def npmin (a : ℚ) (l : List ℚ) : ℚ := l.foldl min a

/-- Shallow embedding of OrthoSlicer._get_object_bounds (ortho_slicer.py
lines 66-74).  On an empty record, np.array([]).T unpacked into four
variables raises ValueError; on a non-empty record the four columns are the
per-entry xmins, xmaxs, ymins and ymaxs, and each returned bound is an
extremum over both the corresponding min column and max column. -/
def _get_object_bounds (entries : List Entry) : Except PyError Entry :=
  match entries with
  | [] => .error .valueError
  | e :: rest =>
    let xmax := max (npmax e.xmax (rest.map Entry.xmax)) (npmax e.xmin (rest.map Entry.xmin))
    let xmin := min (npmin e.xmin (rest.map Entry.xmin)) (npmin e.xmax (rest.map Entry.xmax))
    let ymax := max (npmax e.ymax (rest.map Entry.ymax)) (npmax e.ymin (rest.map Entry.ymin))
    let ymin := min (npmin e.ymin (rest.map Entry.ymin)) (npmin e.ymax (rest.map Entry.ymax))
    .ok ⟨xmin, xmax, ymin, ymax⟩

/-- Shallow embedding of OrthoSlicer._locator (ortho_slicer.py lines
77-98): the bounds of all three views are read, each view's width is its
content width divided by the total and scaled by the frame's horizontal
extent, the lefts accumulate in the order x, y, z, and the Bbox
[[left, 0], [left + width, 1]] of the requesting view is returned.  An
empty record raises (ValueError) before the division; a zero total width
makes the Python float division raise ZeroDivisionError. -/
def _locator (s : OrthoState) (axes : View) : Except PyError (ℚ × ℚ × ℚ × ℚ) :=
  match _get_object_bounds (s.object_bounds View.x),
        _get_object_bounds (s.object_bounds View.y),
        _get_object_bounds (s.object_bounds View.z) with
  | .ok bX, .ok bY, .ok bZ =>
    let wX := bX.xmax - bX.xmin
    let wY := bY.xmax - bY.xmin
    let wZ := bZ.xmax - bZ.xmin
    let total_width := wX + wY + wZ
    if total_width = 0 then .error .zeroDivisionError
    else
      let x0 := s.rect.1
      let x1 := s.rect.2.2.1
      let sX := wX / total_width * (x1 - x0)
      let sY := wY / total_width * (x1 - x0)
      let left := match axes with
        | View.x => x0
        | View.y => x0 + sX
        | View.z => x0 + sX + sY
      let width := match axes with
        | View.x => sX
        | View.y => sY
        | View.z => wZ / total_width * (x1 - x0)
      .ok (left, 0, left + width, 1)
  | .error e, _, _ => .error e
  | _, .error e, _ => .error e
  | _, _, .error e => .error e

/-- Kinds of crosshair line: ax.axvline and ax.axhline. -/
inductive LineKind where
  | vline
  | hline
  deriving DecidableEq, Repr

/-- One crosshair line-drawing command: which view, which primitive, and
the data coordinate it is drawn at.  The fractional insets passed via
ymin/ymax/xmax keyword arguments are style only and are not modelled. -/
structure LineCmd where
  view : View
  kind : LineKind
  pos : ℚ
  deriving DecidableEq, Repr

/-- Shallow embedding of OrthoSlicer.draw_cross (ortho_slicer.py lines
101-128).  When no coordinates are passed the stored cut coordinates are
read (never written).  The x view receives axvline(x) and axhline(z); then
the y view's object bounds are read (an unused read that raises if the y
record is empty, after the x view's lines were already drawn); the y view
receives axvline(y) and axhline(z); the z view receives axvline(x) and
axhline(y).  The returned list holds the commands issued before any
failure. -/
def draw_cross (s : OrthoState) (cut_coords : Option (ℚ × ℚ × ℚ)) :
    OrthoState × List LineCmd × Option PyError :=
  let c := match cut_coords with
    | none => s.cut_coords
    | some c => c
  let x := c.1
  let y := c.2.1
  let z := c.2.2
  let cmdsX : List LineCmd := [⟨View.x, .vline, x⟩, ⟨View.x, .hline, z⟩]
  match _get_object_bounds (s.object_bounds View.y) with
  | .error e => (s, cmdsX, some e)
  | .ok _ =>
    (s, cmdsX ++ [⟨View.y, .vline, y⟩, ⟨View.y, .hline, z⟩,
                  ⟨View.z, .vline, x⟩, ⟨View.z, .hline, y⟩], none)

/-- Annotation labels drawn by annotate: the orientation letters and the
three cut-position texts with the integer printed by the %i format. -/
inductive Label where
  | letterL
  | letterR
  | posX (v : ℤ)
  | posY (v : ℤ)
  | posZ (v : ℤ)
  deriving DecidableEq, Repr

/-- One ax.text command: the view written on and its label.  Corner
placement, alignment and the background patch are style only. -/
structure TextCmd where
  view : View
  label : Label
  deriving DecidableEq, Repr

/-- Truncation toward zero, as Python's %i format applies to a float. -/
def pyInt (q : ℚ) : ℤ := q.num / (q.den : ℤ)

/-- Shallow embedding of OrthoSlicer.annotate (ortho_slicer.py lines
131-213).  The Python locals ax_z and ax_x are assigned only inside the
left_right branch, which draws L and R on the z view and then on the x
view.  The positions branch then uses ax_x (for the y= text), self.axes
of y (for the x= text) and ax_z (for the z= text), in that order; with
left_right false the first of these uses raises UnboundLocalError before
any position text is drawn. -/
def annotate (s : OrthoState) (left_right positions : Bool) :
    OrthoState × List TextCmd × Option PyError :=
  let ax_z : Option View := if left_right then some View.z else none
  let ax_x : Option View := if left_right then some View.x else none
  let lrCmds : List TextCmd :=
    if left_right then
      [⟨View.z, .letterL⟩, ⟨View.z, .letterR⟩, ⟨View.x, .letterL⟩, ⟨View.x, .letterR⟩]
    else []
  if positions then
    match ax_x with
    | none => (s, lrCmds, some .unboundLocalError)
    | some vx =>
      let posCmds : List TextCmd :=
        [⟨vx, .posY (pyInt s.cut_coords.2.1)⟩, ⟨View.y, .posX (pyInt s.cut_coords.1)⟩]
      match ax_z with
      | none => (s, lrCmds ++ posCmds, some .unboundLocalError)
      | some vz => (s, lrCmds ++ posCmds ++ [⟨vz, .posZ (pyInt s.cut_coords.2.2)⟩], none)
  else (s, lrCmds, none)

/-- Affine voxel-to-world transform: a 4x4 matrix whose last row is
0 0 0 1, stored as nine linear coefficients and a translation column. -/
structure Affine where
  a11 : ℚ
  a12 : ℚ
  a13 : ℚ
  a21 : ℚ
  a22 : ℚ
  a23 : ℚ
  a31 : ℚ
  a32 : ℚ
  a33 : ℚ
  t1 : ℚ
  t2 : ℚ
  t3 : ℚ
  deriving DecidableEq, Repr

/-- Application of the affine transform to a coordinate triple. -/
def Affine.apply (a : Affine) (v : ℚ × ℚ × ℚ) : ℚ × ℚ × ℚ :=
  (a.a11 * v.1 + a.a12 * v.2.1 + a.a13 * v.2.2 + a.t1,
   a.a21 * v.1 + a.a22 * v.2.1 + a.a23 * v.2.2 + a.t2,
   a.a31 * v.1 + a.a32 * v.2.1 + a.a33 * v.2.2 + a.t3)

/-- Determinant of the linear part (equal to the determinant of the full
4x4 matrix with last row 0 0 0 1). -/
def Affine.det (a : Affine) : ℚ :=
  a.a11 * (a.a22 * a.a33 - a.a23 * a.a32)
    - a.a12 * (a.a21 * a.a33 - a.a23 * a.a31)
    + a.a13 * (a.a21 * a.a32 - a.a22 * a.a31)

/-- np.linalg.inv on the 4x4 affine matrix: raises LinAlgError when the
matrix is singular, and otherwise yields the inverse, again an affine
transform, computed here by the adjugate formula with translation
-Ainv t. -/
def Affine.inv (a : Affine) : Except PyError Affine :=
  if a.det = 0 then .error .linAlgError
  else
    let d := a.det
    let i11 := (a.a22 * a.a33 - a.a23 * a.a32) / d
    let i12 := (a.a13 * a.a32 - a.a12 * a.a33) / d
    let i13 := (a.a12 * a.a23 - a.a13 * a.a22) / d
    let i21 := (a.a23 * a.a31 - a.a21 * a.a33) / d
    let i22 := (a.a11 * a.a33 - a.a13 * a.a31) / d
    let i23 := (a.a13 * a.a21 - a.a11 * a.a23) / d
    let i31 := (a.a21 * a.a32 - a.a22 * a.a31) / d
    let i32 := (a.a12 * a.a31 - a.a11 * a.a32) / d
    let i33 := (a.a11 * a.a22 - a.a12 * a.a21) / d
    .ok ⟨i11, i12, i13, i21, i22, i23, i31, i32, i33,
         -(i11 * a.t1 + i12 * a.t2 + i13 * a.t3),
         -(i21 * a.t1 + i22 * a.t2 + i23 * a.t3),
         -(i31 * a.t1 + i32 * a.t2 + i33 * a.t3)⟩

/-- Modelled from the spec: coord_transform lives in coord_tools.py, which
is not among the sources; per the specification's external-interface
section it applies the given affine matrix to the coordinates. -/
def coord_transform (x y z : ℚ) (m : Affine) : ℚ × ℚ × ℚ := m.apply (x, y, z)

/-- A world-space bounding box (xmin, xmax, ymin, ymax, zmin, zmax). -/
structure Bounds3 where
  xmin : ℚ
  xmax : ℚ
  ymin : ℚ
  ymax : ℚ
  zmin : ℚ
  zmax : ℚ
  deriving DecidableEq, Repr

/-- Modelled from the spec: get_bounds lives in coord_tools.py, which is
not among the sources; per the specification it is the axis-aligned bound
over the affine images of the voxel-grid corners, the grid spanning index
0 to shape - 1 on each axis. -/
def get_bounds (shape : ℕ × ℕ × ℕ) (a : Affine) : Bounds3 :=
  let d1 : ℚ := (shape.1 : ℚ) - 1
  let d2 : ℚ := (shape.2.1 : ℚ) - 1
  let d3 : ℚ := (shape.2.2 : ℚ) - 1
  let c0 := a.apply (0, 0, 0)
  let cs := [a.apply (d1, 0, 0), a.apply (0, d2, 0), a.apply (0, 0, d3),
             a.apply (d1, d2, 0), a.apply (d1, 0, d3), a.apply (0, d2, d3),
             a.apply (d1, d2, d3)]
  ⟨npmin c0.1 (cs.map Prod.fst), npmax c0.1 (cs.map Prod.fst),
   npmin c0.2.1 (cs.map fun c => c.2.1), npmax c0.2.1 (cs.map fun c => c.2.1),
   npmin c0.2.2 (cs.map fun c => c.2.2), npmax c0.2.2 (cs.map fun c => c.2.2)⟩

/-- Voxels of the grid at which the validity predicate holds, enumerated
in lexicographic order. -/
def validVoxels (shape : ℕ × ℕ × ℕ) (valid : ℕ → ℕ → ℕ → Bool) : List (ℕ × ℕ × ℕ) :=
  (List.range shape.1).flatMap fun i =>
    (List.range shape.2.1).flatMap fun j =>
      (List.range shape.2.2).filterMap fun k =>
        if valid i j k then some (i, j, k) else none

/-- Modelled from the spec: get_mask_bounds lives in coord_tools.py, which
is not among the sources; per the specification it is the tighter
world-space bounding box over valid voxels only.  With no valid voxel, a
numpy extremum over an empty selection raises (ValueError). -/
def get_mask_bounds (shape : ℕ × ℕ × ℕ) (valid : ℕ → ℕ → ℕ → Bool) (a : Affine) :
    Except PyError Bounds3 :=
  match (validVoxels shape valid).map
      (fun v => a.apply ((v.1 : ℚ), (v.2.1 : ℚ), (v.2.2 : ℚ))) with
  | [] => .error .valueError
  | c :: cs =>
    .ok ⟨npmin c.1 (cs.map Prod.fst), npmax c.1 (cs.map Prod.fst),
         npmin c.2.1 (cs.map fun p => p.2.1), npmax c.2.1 (cs.map fun p => p.2.1),
         npmin c.2.2 (cs.map fun p => p.2.2), npmax c.2.2 (cs.map fun p => p.2.2)⟩

/-- The 3D volume as plot_map sees it: its voxel-grid shape and, when it
is a masked array (hasattr(map, 'mask')), the mask, with the numpy
convention that a true mask value marks the voxel invalid.  The voxel
values themselves only feed the vmin/vmax display defaults, which no claim
touches, so they are not modelled. -/
structure NdMap where
  shape : ℕ × ℕ × ℕ
  mask : Option (ℕ → ℕ → ℕ → Bool)

/-- Python 2's int(round(c)): round half away from zero. -/
def pyRound (q : ℚ) : ℤ := if 0 ≤ q then ⌊q + 1 / 2⌋ else ⌈q - 1 / 2⌉

/-- The rounded voxel indices plot_map computes by pushing the cut
coordinates through the inverted affine (ortho_slicer.py lines 229-231). -/
def cutIndices (c : ℚ × ℚ × ℚ) (ainv : Affine) : ℤ × ℤ × ℤ :=
  let t := coord_transform c.1 c.2.1 c.2.2 ainv
  (pyRound t.1, pyRound t.2.1, pyRound t.2.2)

/-- Validity of a Python index into an axis of length n: negatives count
from the end, and anything outside -n ≤ i < n raises IndexError. -/
def idxOK (i : ℤ) (n : ℕ) : Bool := decide (-(n : ℤ) ≤ i) && decide (i < (n : ℤ))

/-- The bounds registered as this call's content entry (ortho_slicer.py
lines 234-238): the tighter mask bounds when the map carries a mask, and
the full-volume bounds otherwise. -/
def entry_bounds (m : NdMap) (affine : Affine) : Except PyError Bounds3 :=
  match m.mask with
  | none => .ok (get_bounds m.shape affine)
  | some msk => get_mask_bounds m.shape (fun i j k => !(msk i j k)) affine

/-- self._object_bounds[ax].append(entry): the view's record grows by one
entry at the end, other views' records are untouched. -/
def appendBounds (s : OrthoState) (v : View) (e : Entry) : OrthoState :=
  { s with
    object_bounds := fun v' => if v' = v then s.object_bounds v' ++ [e] else s.object_bounds v' }

/-- An imshow command: the view drawn on, which voxel axis the slicing
fixed and at which (possibly negative, Python-style) index, whether
np.rot90 was applied, and the world-space extent handed to imshow. -/
structure ImshowCmd where
  view : View
  fixedAxis : Fin 3
  fixedIndex : ℤ
  rot90 : Bool
  extent : ℚ × ℚ × ℚ × ℚ
  deriving DecidableEq, Repr

/-- Shallow embedding of OrthoSlicer.plot_map (ortho_slicer.py lines
215-263).  The cut coordinates are pushed through np.linalg.inv(affine)
and rounded; the full-volume bounds and, for a masked map, the tighter
mask bounds are computed; then, in order, the x view shows
np.rot90(map[:, y_map, :]) with the full (x, z) extent and appends the
registered (x, z) entry, the y view shows np.rot90(map[x_map, :, :]) with
the full (y, z) extent and appends the registered (y, z) entry, and the z
view shows np.rot90(map[:, :, z_map]) with the full (x, y) extent and
appends the registered (x, y) entry.  A slice whose fixed index is out of
range raises IndexError at that view, after the earlier views' entries
were already appended.  The ax.axis(self._get_object_bounds(ax)) call
after each append only sets display limits (and always succeeds, the
record having just become non-empty); display limits are not part of the
modelled state.  The vmin/vmax display defaults taken from map.min() and
map.max() are not modelled. -/
def plot_map (s : OrthoState) (m : NdMap) (affine : Affine) :
    OrthoState × List ImshowCmd × Option PyError :=
  match affine.inv with
  | .error e => (s, [], some e)
  | .ok ainv =>
    let idx := cutIndices s.cut_coords ainv
    let x_map := idx.1
    let y_map := idx.2.1
    let z_map := idx.2.2
    let fb := get_bounds m.shape affine
    match entry_bounds m affine with
    | .error e => (s, [], some e)
    | .ok eb =>
      if idxOK y_map m.shape.2.1 then
        let cmdX : ImshowCmd := ⟨View.x, 1, y_map, true, (fb.xmin, fb.xmax, fb.zmin, fb.zmax)⟩
        let s1 := appendBounds s View.x ⟨eb.xmin, eb.xmax, eb.zmin, eb.zmax⟩
        if idxOK x_map m.shape.1 then
          let cmdY : ImshowCmd := ⟨View.y, 0, x_map, true, (fb.ymin, fb.ymax, fb.zmin, fb.zmax)⟩
          let s2 := appendBounds s1 View.y ⟨eb.ymin, eb.ymax, eb.zmin, eb.zmax⟩
          if idxOK z_map m.shape.2.2 then
            let cmdZ : ImshowCmd := ⟨View.z, 2, z_map, true, (fb.xmin, fb.xmax, fb.ymin, fb.ymax)⟩
            let s3 := appendBounds s2 View.z ⟨eb.xmin, eb.xmax, eb.ymin, eb.ymax⟩
            (s3, [cmdX, cmdY, cmdZ], none)
          else (s2, [cmdX, cmdY], some .indexError)
        else (s1, [cmdX], some .indexError)
      else (s, [], some .indexError)


/-! Helper lemmas about the seeded fold extrema. -/

theorem npmin_cons (a x : ℚ) (l : List ℚ) : npmin a (x :: l) = npmin (min a x) l := rfl

theorem npmax_cons (a x : ℚ) (l : List ℚ) : npmax a (x :: l) = npmax (max a x) l := rfl

theorem npmin_le_seed (a : ℚ) (l : List ℚ) : npmin a l ≤ a := by
  induction l generalizing a with
  | nil => exact le_refl a
  | cons x t ih =>
    calc npmin a (x :: t) = npmin (min a x) t := rfl
    _ ≤ min a x := ih (min a x)
    _ ≤ a := min_le_left a x

theorem seed_le_npmax (a : ℚ) (l : List ℚ) : a ≤ npmax a l := by
  induction l generalizing a with
  | nil => exact le_refl a
  | cons x t ih =>
    calc a ≤ max a x := le_max_left a x
    _ ≤ npmax (max a x) t := ih (max a x)
    _ = npmax a (x :: t) := rfl

theorem npmin_le_npmin (f g : Entry → ℚ) (l : List Entry) (a b : ℚ)
    (hab : a ≤ b) (h : ∀ e ∈ l, f e ≤ g e) :
    npmin a (l.map f) ≤ npmin b (l.map g) := by
  induction l generalizing a b with
  | nil => exact hab
  | cons x t ih =>
    have hx : f x ≤ g x := h x (List.mem_cons_self x t)
    have hacc : min a (f x) ≤ min b (g x) := min_le_min hab hx
    have ht : ∀ e ∈ t, f e ≤ g e := fun e he => h e (List.mem_cons_of_mem x he)
    calc npmin a ((x :: t).map f) = npmin (min a (f x)) (t.map f) := rfl
    _ ≤ npmin (min b (g x)) (t.map g) := ih (min a (f x)) (min b (g x)) hacc ht
    _ = npmin b ((x :: t).map g) := rfl

theorem npmax_le_npmax (f g : Entry → ℚ) (l : List Entry) (a b : ℚ)
    (hab : a ≤ b) (h : ∀ e ∈ l, f e ≤ g e) :
    npmax a (l.map f) ≤ npmax b (l.map g) := by
  induction l generalizing a b with
  | nil => exact hab
  | cons x t ih =>
    have hx : f x ≤ g x := h x (List.mem_cons_self x t)
    have hacc : max a (f x) ≤ max b (g x) := max_le_max hab hx
    have ht : ∀ e ∈ t, f e ≤ g e := fun e he => h e (List.mem_cons_of_mem x he)
    calc npmax a ((x :: t).map f) = npmax (max a (f x)) (t.map f) := rfl
    _ ≤ npmax (max b (g x)) (t.map g) := ih (max a (f x)) (max b (g x)) hacc ht
    _ = npmax b ((x :: t).map g) := rfl

/-- A sample slicer state: frame (0, 0, 1, 1), cut coordinates (1, 2, 3),
and one registered entry per view, of content widths 1, 2 and 1. -/
def wState : OrthoState where
  rect := (0, 0, 1, 1)
  cut_coords := (1, 2, 3)
  object_bounds := fun v => match v with
    | View.x => [⟨0, 1, 0, 1⟩]
    | View.y => [⟨0, 2, 0, 1⟩]
    | View.z => [⟨0, 1, 0, 1⟩]

/-- C4 counterexample: on a view with zero registered entries,
_get_object_bounds fails with the unchecked ValueError that unpacking the
empty array raises, which is not the explicit EmptyContentError the claim
describes. -/
theorem get_object_bounds_empty_cex :
    _get_object_bounds [] = .error .valueError ∧
    (Except.error PyError.valueError : Except PyError Entry) ≠ .error .emptyContentError :=
  ⟨rfl, by decide⟩

/-- C4 amended: querying the object bounds of a view with zero registered
entries fails — with the unchecked ValueError raised by unpacking the empty
array, the code containing no explicit EmptyContentError check — and in
particular never returns a default or zero box. -/
theorem get_object_bounds_empty_raises :
    _get_object_bounds [] = .error .valueError ∧
    ∀ b : Entry, _get_object_bounds [] ≠ .ok b :=
  ⟨rfl, fun _ h => Except.noConfusion h⟩

/-- C9: annotate with left_right false and positions true uses the local
ax_x before any branch assigned it, so the call fails with Python's
undefined-local-variable error, the state is untouched and no position
annotation is drawn. -/
theorem annotate_positions_unbound (s : OrthoState) :
    annotate s false true = (s, [], some PyError.unboundLocalError) := rfl

/-- C10: on any non-empty record, even one holding malformed entries whose
min exceeds their max, the box _get_object_bounds returns is ordered on
both axes, because each returned bound is an extremum over the min and max
columns together. -/
theorem get_object_bounds_min_le_max (e : Entry) (rest : List Entry) (r : Entry)
    (h : _get_object_bounds (e :: rest) = .ok r) :
    r.xmin ≤ r.xmax ∧ r.ymin ≤ r.ymax := by
  simp only [_get_object_bounds] at h
  injection h with h
  subst h
  constructor
  · calc min (npmin e.xmin (rest.map Entry.xmin)) (npmin e.xmax (rest.map Entry.xmax))
        ≤ npmin e.xmin (rest.map Entry.xmin) := min_le_left _ _
    _ ≤ e.xmin := npmin_le_seed _ _
    _ ≤ npmax e.xmin (rest.map Entry.xmin) := seed_le_npmax _ _
    _ ≤ max (npmax e.xmax (rest.map Entry.xmax)) (npmax e.xmin (rest.map Entry.xmin)) :=
        le_max_right _ _
  · calc min (npmin e.ymin (rest.map Entry.ymin)) (npmin e.ymax (rest.map Entry.ymax))
        ≤ npmin e.ymin (rest.map Entry.ymin) := min_le_left _ _
    _ ≤ e.ymin := npmin_le_seed _ _
    _ ≤ npmax e.ymin (rest.map Entry.ymin) := seed_le_npmax _ _
    _ ≤ max (npmax e.ymax (rest.map Entry.ymax)) (npmax e.ymin (rest.map Entry.ymin)) :=
        le_max_right _ _

/-- C10 witness: a single malformed entry with xmin > xmax and ymin > ymax
still yields an ordered box. -/
theorem get_object_bounds_min_le_max_witness :
    _get_object_bounds [(⟨5, 1, 3, 0⟩ : Entry)] = .ok ⟨1, 5, 0, 3⟩ ∧
    ((1 : ℚ) ≤ 5 ∧ (0 : ℚ) ≤ 3) :=
  ⟨by decide, get_object_bounds_min_le_max ⟨5, 1, 3, 0⟩ [] ⟨1, 5, 0, 3⟩ (by decide)⟩

/-- C3: draw_cross at coordinates (x, y, z) draws on the x (sagittal) view
the vertical line at x and the horizontal line at z (not y), on the y
(coronal) view the vertical line at y and the horizontal line at z, and on
the z (axial) view the vertical line at x and the horizontal line at y;
with no coordinates passed it behaves as if called with the stored cut
coordinates. -/
theorem draw_cross_line_positions (s : OrthoState) (x y z : ℚ) (b : Entry)
    (hb : _get_object_bounds (s.object_bounds View.y) = .ok b) :
    draw_cross s (some (x, y, z)) =
      (s, [⟨View.x, .vline, x⟩, ⟨View.x, .hline, z⟩,
           ⟨View.y, .vline, y⟩, ⟨View.y, .hline, z⟩,
           ⟨View.z, .vline, x⟩, ⟨View.z, .hline, y⟩], none) ∧
    draw_cross s none = draw_cross s (some s.cut_coords) := by
  constructor
  · simp only [draw_cross, hb]
    rfl
  · rfl

/-- C3 witness: draw_cross on the sample state at (7, 8, 9). -/
theorem draw_cross_line_positions_witness :
    _get_object_bounds (wState.object_bounds View.y) = .ok ⟨0, 2, 0, 1⟩ ∧
    draw_cross wState (some (7, 8, 9)) =
      (wState, [⟨View.x, .vline, 7⟩, ⟨View.x, .hline, 9⟩,
                ⟨View.y, .vline, 8⟩, ⟨View.y, .hline, 9⟩,
                ⟨View.z, .vline, 7⟩, ⟨View.z, .hline, 8⟩], none) :=
  ⟨by decide, (draw_cross_line_positions wState 7 8 9 ⟨0, 2, 0, 1⟩ (by decide)).1⟩

/-- C7: passing explicit coordinates to draw_cross leaves the whole state,
and in particular the stored default cut coordinates, unchanged, and a
subsequent draw_cross with no coordinates behaves exactly as draw_cross at
the stored triple. -/
theorem draw_cross_preserves_default (s : OrthoState) (c : ℚ × ℚ × ℚ) :
    (draw_cross s (some c)).1 = s ∧
    (draw_cross s (some c)).1.cut_coords = s.cut_coords ∧
    draw_cross (draw_cross s (some c)).1 none = draw_cross s (some s.cut_coords) := by
  have h1 : (draw_cross s (some c)).1 = s := by
    cases h : _get_object_bounds (s.object_bounds View.y) <;> simp [draw_cross, h]
  refine ⟨h1, by rw [h1], ?_⟩
  rw [h1]
  rfl


/-- Proportional-band layout property of the locator at content boxes bX,
bY, bZ: each view receives the rectangle (left, 0, left + width, 1), the
widths being the proportional shares of the frame's horizontal extent, the
bands contiguous left-to-right in the order x, y, z and spanning height 0
to 1, and the widths summing exactly to the horizontal extent and pairwise
proportional to the content widths. -/
def locatorSpec (s : OrthoState) (bX bY bZ : Entry) : Prop :=
  let x0 := s.rect.1
  let x1 := s.rect.2.2.1
  let wX := bX.xmax - bX.xmin
  let wY := bY.xmax - bY.xmin
  let wZ := bZ.xmax - bZ.xmin
  let total := wX + wY + wZ
  let sX := wX / total * (x1 - x0)
  let sY := wY / total * (x1 - x0)
  let sZ := wZ / total * (x1 - x0)
  _locator s View.x = .ok (x0, 0, x0 + sX, 1) ∧
  _locator s View.y = .ok (x0 + sX, 0, x0 + sX + sY, 1) ∧
  _locator s View.z = .ok (x0 + sX + sY, 0, x0 + sX + sY + sZ, 1) ∧
  sX + sY + sZ = x1 - x0 ∧
  sX * wY = sY * wX ∧ sX * wZ = sZ * wX ∧ sY * wZ = sZ * wY

/-- C1: when all three views have registered content of positive width,
the locator allocates proportional contiguous bands as described by
locatorSpec. -/
theorem locator_allocates_proportional_bands (s : OrthoState) (bX bY bZ : Entry)
    (hX : _get_object_bounds (s.object_bounds View.x) = .ok bX)
    (hY : _get_object_bounds (s.object_bounds View.y) = .ok bY)
    (hZ : _get_object_bounds (s.object_bounds View.z) = .ok bZ)
    (hwX : 0 < bX.xmax - bX.xmin) (hwY : 0 < bY.xmax - bY.xmin)
    (hwZ : 0 < bZ.xmax - bZ.xmin) :
    locatorSpec s bX bY bZ := by
  have h0 : (0 : ℚ) < bX.xmax - bX.xmin + (bY.xmax - bY.xmin) + (bZ.xmax - bZ.xmin) := by
    linarith
  have htot : bX.xmax - bX.xmin + (bY.xmax - bY.xmin) + (bZ.xmax - bZ.xmin) ≠ 0 :=
    ne_of_gt h0
  simp only [locatorSpec]
  refine ⟨?_, ?_, ?_, ?_, ?_, ?_, ?_⟩
  · simp only [_locator, hX, hY, hZ]
    rw [if_neg htot]
  · simp only [_locator, hX, hY, hZ]
    rw [if_neg htot]
  · simp only [_locator, hX, hY, hZ]
    rw [if_neg htot]
  · field_simp
    ring
  · ring
  · ring
  · ring

/-- C1 witness: on the sample state the content widths are 1, 2 and 1 with
frame extent 1, so the bands get widths 1/4, 2/4 and 1/4. -/
theorem locator_allocates_proportional_bands_witness :
    _get_object_bounds (wState.object_bounds View.x) = .ok ⟨0, 1, 0, 1⟩ ∧
    _get_object_bounds (wState.object_bounds View.y) = .ok ⟨0, 2, 0, 1⟩ ∧
    _get_object_bounds (wState.object_bounds View.z) = .ok ⟨0, 1, 0, 1⟩ ∧
    locatorSpec wState ⟨0, 1, 0, 1⟩ ⟨0, 2, 0, 1⟩ ⟨0, 1, 0, 1⟩ :=
  ⟨by decide, by decide, by decide,
   locator_allocates_proportional_bands wState ⟨0, 1, 0, 1⟩ ⟨0, 2, 0, 1⟩ ⟨0, 1, 0, 1⟩
     (by decide) (by decide) (by decide) (by decide) (by decide) (by decide)⟩

/-- Written from the spec's words for C5: the union box taken, per axis,
as the componentwise minimum of the per-entry minima and maximum of the
per-entry maxima. -/
def specUnionBox (e0 : Entry) (rest : List Entry) : Entry :=
  ⟨npmin e0.xmin (rest.map Entry.xmin), npmax e0.xmax (rest.map Entry.xmax),
   npmin e0.ymin (rest.map Entry.ymin), npmax e0.ymax (rest.map Entry.ymax)⟩

theorem get_object_bounds_wf (e0 : Entry) (rest : List Entry)
    (hwf : ∀ b ∈ e0 :: rest, b.xmin ≤ b.xmax ∧ b.ymin ≤ b.ymax) :
    _get_object_bounds (e0 :: rest) = .ok (specUnionBox e0 rest) := by
  have hx0 : e0.xmin ≤ e0.xmax := (hwf e0 (List.mem_cons_self e0 rest)).1
  have hy0 : e0.ymin ≤ e0.ymax := (hwf e0 (List.mem_cons_self e0 rest)).2
  have hxr : ∀ b ∈ rest, b.xmin ≤ b.xmax :=
    fun b hb => (hwf b (List.mem_cons_of_mem e0 hb)).1
  have hyr : ∀ b ∈ rest, b.ymin ≤ b.ymax :=
    fun b hb => (hwf b (List.mem_cons_of_mem e0 hb)).2
  simp only [_get_object_bounds, specUnionBox]
  refine congrArg Except.ok ?_
  have ex : max (npmax e0.xmax (rest.map Entry.xmax)) (npmax e0.xmin (rest.map Entry.xmin)) =
      npmax e0.xmax (rest.map Entry.xmax) :=
    max_eq_left (npmax_le_npmax Entry.xmin Entry.xmax rest e0.xmin e0.xmax hx0 hxr)
  have nx : min (npmin e0.xmin (rest.map Entry.xmin)) (npmin e0.xmax (rest.map Entry.xmax)) =
      npmin e0.xmin (rest.map Entry.xmin) :=
    min_eq_left (npmin_le_npmin Entry.xmin Entry.xmax rest e0.xmin e0.xmax hx0 hxr)
  have ey : max (npmax e0.ymax (rest.map Entry.ymax)) (npmax e0.ymin (rest.map Entry.ymin)) =
      npmax e0.ymax (rest.map Entry.ymax) :=
    max_eq_left (npmax_le_npmax Entry.ymin Entry.ymax rest e0.ymin e0.ymax hy0 hyr)
  have ny : min (npmin e0.ymin (rest.map Entry.ymin)) (npmin e0.ymax (rest.map Entry.ymax)) =
      npmin e0.ymin (rest.map Entry.ymin) :=
    min_eq_left (npmin_le_npmin Entry.ymin Entry.ymax rest e0.ymin e0.ymax hy0 hyr)
  rw [ex, nx, ey, ny]

/-- C5: appending a content-bounds entry keeps every prior entry of that
view in place and order (the old record is the take-front of the new one),
grows the record by exactly that entry at the end, leaves the other views'
records untouched, and the union box of the grown record is, per axis, the
min of the per-entry minima and the max of the per-entry maxima. -/
theorem append_preserves_entries_union (s : OrthoState) (v : View) (e e0 : Entry)
    (rest : List Entry)
    (happ : (appendBounds s v e).object_bounds v = e0 :: rest)
    (hwf : ∀ b ∈ e0 :: rest, b.xmin ≤ b.xmax ∧ b.ymin ≤ b.ymax) :
    (e0 :: rest).take (s.object_bounds v).length = s.object_bounds v ∧
    (e0 :: rest).length = (s.object_bounds v).length + 1 ∧
    (e0 :: rest).getLast? = some e ∧
    (∀ v' : View, v' ≠ v → (appendBounds s v e).object_bounds v' = s.object_bounds v') ∧
    _get_object_bounds (e0 :: rest) = .ok (specUnionBox e0 rest) := by
  have hb : (appendBounds s v e).object_bounds v = s.object_bounds v ++ [e] := by
    simp [appendBounds]
  rw [hb] at happ
  refine ⟨?_, ?_, ?_, ?_, get_object_bounds_wf e0 rest hwf⟩
  · rw [← happ]
    exact List.take_left (s.object_bounds v) [e]
  · rw [← happ]
    simp
  · rw [← happ]
    exact List.getLast?_concat _
  · intro v' hv'
    simp [appendBounds, hv']

/-- C5 witness: appending a second entry to the x view of the sample
state. -/
theorem append_preserves_entries_union_witness :
    (appendBounds wState View.x ⟨2, 3, 1, 2⟩).object_bounds View.x =
        [⟨0, 1, 0, 1⟩, ⟨2, 3, 1, 2⟩] ∧
    ([(⟨0, 1, 0, 1⟩ : Entry), ⟨2, 3, 1, 2⟩].take (wState.object_bounds View.x).length =
        wState.object_bounds View.x ∧
      [(⟨0, 1, 0, 1⟩ : Entry), ⟨2, 3, 1, 2⟩].length =
        (wState.object_bounds View.x).length + 1 ∧
      [(⟨0, 1, 0, 1⟩ : Entry), ⟨2, 3, 1, 2⟩].getLast? = some ⟨2, 3, 1, 2⟩ ∧
      (∀ v' : View, v' ≠ View.x →
        (appendBounds wState View.x ⟨2, 3, 1, 2⟩).object_bounds v' =
          wState.object_bounds v') ∧
      _get_object_bounds [(⟨0, 1, 0, 1⟩ : Entry), ⟨2, 3, 1, 2⟩] =
        .ok (specUnionBox ⟨0, 1, 0, 1⟩ [⟨2, 3, 1, 2⟩])) :=
  ⟨by decide,
   append_preserves_entries_union wState View.x ⟨2, 3, 1, 2⟩ ⟨0, 1, 0, 1⟩ [⟨2, 3, 1, 2⟩]
     (by decide) (by decide)⟩

/-- The identity affine transform. -/
def idAffine : Affine := ⟨1, 0, 0, 0, 1, 0, 0, 0, 1, 0, 0, 0⟩

/-- An unmasked 4x4x4 volume. -/
def wMap : NdMap := ⟨(4, 4, 4), none⟩

theorem plot_map_success_eq (s : OrthoState) (m : NdMap) (a ainv : Affine) (eb : Bounds3)
    (xi yi zi : ℤ)
    (hinv : a.inv = .ok ainv)
    (heb : entry_bounds m a = .ok eb)
    (hidx : cutIndices s.cut_coords ainv = (xi, yi, zi))
    (hy : idxOK yi m.shape.2.1 = true)
    (hx : idxOK xi m.shape.1 = true)
    (hz : idxOK zi m.shape.2.2 = true) :
    plot_map s m a =
      (appendBounds (appendBounds (appendBounds s View.x
            ⟨eb.xmin, eb.xmax, eb.zmin, eb.zmax⟩)
          View.y ⟨eb.ymin, eb.ymax, eb.zmin, eb.zmax⟩)
        View.z ⟨eb.xmin, eb.xmax, eb.ymin, eb.ymax⟩,
       [⟨View.x, 1, yi, true, ((get_bounds m.shape a).xmin, (get_bounds m.shape a).xmax,
                               (get_bounds m.shape a).zmin, (get_bounds m.shape a).zmax)⟩,
        ⟨View.y, 0, xi, true, ((get_bounds m.shape a).ymin, (get_bounds m.shape a).ymax,
                               (get_bounds m.shape a).zmin, (get_bounds m.shape a).zmax)⟩,
        ⟨View.z, 2, zi, true, ((get_bounds m.shape a).xmin, (get_bounds m.shape a).xmax,
                               (get_bounds m.shape a).ymin, (get_bounds m.shape a).ymax)⟩],
       none) := by
  simp [plot_map, hinv, heb, hidx, hy, hx, hz]

/-- C2 counterexample: with the identity affine and cut coordinates
(1, 2, 3) on an unmasked 4x4x4 volume, the x (sagittal) view's image
command fixes voxel axis 1 (the second index) at the rounded second
coordinate 2 — not the first index at 1 as the claim states; the fixed
axes across the three views are (1, 0, 2). -/
theorem plot_map_sagittal_index_cex :
    ((plot_map wState wMap idAffine).2.1.map ImshowCmd.fixedAxis = [1, 0, 2] ∧
     (plot_map wState wMap idAffine).2.1.map ImshowCmd.fixedIndex = [2, 1, 3]) ∧
    ((1 : Fin 3) ≠ 0 ∧ (2 : ℤ) ≠ 1) :=
  ⟨⟨by decide, by decide⟩, by decide, by decide⟩

/-- C2 amended: on a successful plot_map call the x (sagittal) view shows
the slice fixing the SECOND voxel index at the rounded second coordinate,
the y (coronal) view fixes the FIRST index, and the z (axial) view fixes
the third; each slice is rotated 90 degrees, and the extents handed to
imshow are the full-volume bounds on (x, z), (y, z) and (x, y)
respectively. -/
theorem plot_map_slicing_axes (s : OrthoState) (m : NdMap) (a ainv : Affine) (eb : Bounds3)
    (xi yi zi : ℤ)
    (hinv : a.inv = .ok ainv)
    (heb : entry_bounds m a = .ok eb)
    (hidx : cutIndices s.cut_coords ainv = (xi, yi, zi))
    (hy : idxOK yi m.shape.2.1 = true)
    (hx : idxOK xi m.shape.1 = true)
    (hz : idxOK zi m.shape.2.2 = true) :
    (plot_map s m a).2.1 =
      [⟨View.x, 1, yi, true, ((get_bounds m.shape a).xmin, (get_bounds m.shape a).xmax,
                              (get_bounds m.shape a).zmin, (get_bounds m.shape a).zmax)⟩,
       ⟨View.y, 0, xi, true, ((get_bounds m.shape a).ymin, (get_bounds m.shape a).ymax,
                              (get_bounds m.shape a).zmin, (get_bounds m.shape a).zmax)⟩,
       ⟨View.z, 2, zi, true, ((get_bounds m.shape a).xmin, (get_bounds m.shape a).xmax,
                              (get_bounds m.shape a).ymin, (get_bounds m.shape a).ymax)⟩] ∧
    (plot_map s m a).2.2 = none := by
  rw [plot_map_success_eq s m a ainv eb xi yi zi hinv heb hidx hy hx hz]
  exact ⟨rfl, rfl⟩

/-- C2 amended witness: identity affine, cut coordinates (1, 2, 3),
unmasked 4x4x4 volume. -/
theorem plot_map_slicing_axes_witness :
    entry_bounds wMap idAffine = .ok ⟨0, 3, 0, 3, 0, 3⟩ ∧
    cutIndices wState.cut_coords idAffine = (1, 2, 3) ∧
    ((plot_map wState wMap idAffine).2.1 =
      [⟨View.x, 1, 2, true, ((get_bounds wMap.shape idAffine).xmin,
                             (get_bounds wMap.shape idAffine).xmax,
                             (get_bounds wMap.shape idAffine).zmin,
                             (get_bounds wMap.shape idAffine).zmax)⟩,
       ⟨View.y, 0, 1, true, ((get_bounds wMap.shape idAffine).ymin,
                             (get_bounds wMap.shape idAffine).ymax,
                             (get_bounds wMap.shape idAffine).zmin,
                             (get_bounds wMap.shape idAffine).zmax)⟩,
       ⟨View.z, 2, 3, true, ((get_bounds wMap.shape idAffine).xmin,
                             (get_bounds wMap.shape idAffine).xmax,
                             (get_bounds wMap.shape idAffine).ymin,
                             (get_bounds wMap.shape idAffine).ymax)⟩] ∧
     (plot_map wState wMap idAffine).2.2 = none) :=
  ⟨by decide, by decide,
   plot_map_slicing_axes wState wMap idAffine idAffine ⟨0, 3, 0, 3, 0, 3⟩ 1 2 3
     (by decide) (by decide) (by decide) (by decide) (by decide) (by decide)⟩

/-- A mask on a 4x4x4 grid that marks every voxel invalid except (1, 2, 3)
(numpy convention: true = masked out). -/
def mMask : ℕ → ℕ → ℕ → Bool := fun i j k => !(i == 1 && j == 2 && k == 3)

/-- A masked 4x4x4 volume whose only valid voxel is (1, 2, 3). -/
def mMap : NdMap := ⟨(4, 4, 4), some mMask⟩

/-- C6 theorem: on a successful plot_map call on a masked volume, the
entry appended to each view's content-bounds record is the tighter mask
bounding box (its projection to that view's two axes), while the extents
handed to imshow are the full-volume bounds; and whenever the mask leaves
exactly one valid voxel the registered box is degenerate — equal min and
max on every axis — and hence strictly narrower than the full-volume box
on every axis on which the latter has positive extent. -/
theorem plot_map_masked_registers_tight_bounds
    (s : OrthoState) (m : NdMap) (a ainv : Affine) (msk : ℕ → ℕ → ℕ → Bool)
    (mb : Bounds3) (xi yi zi : ℤ)
    (hmask : m.mask = some msk)
    (hinv : a.inv = .ok ainv)
    (hmb : get_mask_bounds m.shape (fun i j k => !(msk i j k)) a = .ok mb)
    (hidx : cutIndices s.cut_coords ainv = (xi, yi, zi))
    (hy : idxOK yi m.shape.2.1 = true)
    (hx : idxOK xi m.shape.1 = true)
    (hz : idxOK zi m.shape.2.2 = true) :
    ((plot_map s m a).1.object_bounds View.x =
        s.object_bounds View.x ++ [⟨mb.xmin, mb.xmax, mb.zmin, mb.zmax⟩] ∧
     (plot_map s m a).1.object_bounds View.y =
        s.object_bounds View.y ++ [⟨mb.ymin, mb.ymax, mb.zmin, mb.zmax⟩] ∧
     (plot_map s m a).1.object_bounds View.z =
        s.object_bounds View.z ++ [⟨mb.xmin, mb.xmax, mb.ymin, mb.ymax⟩]) ∧
    (plot_map s m a).2.1.map ImshowCmd.extent =
      [((get_bounds m.shape a).xmin, (get_bounds m.shape a).xmax,
        (get_bounds m.shape a).zmin, (get_bounds m.shape a).zmax),
       ((get_bounds m.shape a).ymin, (get_bounds m.shape a).ymax,
        (get_bounds m.shape a).zmin, (get_bounds m.shape a).zmax),
       ((get_bounds m.shape a).xmin, (get_bounds m.shape a).xmax,
        (get_bounds m.shape a).ymin, (get_bounds m.shape a).ymax)] ∧
    (∀ v : ℕ × ℕ × ℕ,
      validVoxels m.shape (fun i j k => !(msk i j k)) = [v] →
      (mb.xmin = mb.xmax ∧ mb.ymin = mb.ymax ∧ mb.zmin = mb.zmax) ∧
      (0 < (get_bounds m.shape a).xmax - (get_bounds m.shape a).xmin →
        mb.xmax - mb.xmin < (get_bounds m.shape a).xmax - (get_bounds m.shape a).xmin) ∧
      (0 < (get_bounds m.shape a).ymax - (get_bounds m.shape a).ymin →
        mb.ymax - mb.ymin < (get_bounds m.shape a).ymax - (get_bounds m.shape a).ymin) ∧
      (0 < (get_bounds m.shape a).zmax - (get_bounds m.shape a).zmin →
        mb.zmax - mb.zmin < (get_bounds m.shape a).zmax - (get_bounds m.shape a).zmin)) := by
  have heb : entry_bounds m a = .ok mb := by
    rw [entry_bounds, hmask]
    exact hmb
  rw [plot_map_success_eq s m a ainv mb xi yi zi hinv heb hidx hy hx hz]
  refine ⟨⟨by simp [appendBounds], by simp [appendBounds], by simp [appendBounds]⟩, rfl, ?_⟩
  intro v hsv
  have hmb2 : mb = ⟨(a.apply ((v.1 : ℚ), (v.2.1 : ℚ), (v.2.2 : ℚ))).1,
      (a.apply ((v.1 : ℚ), (v.2.1 : ℚ), (v.2.2 : ℚ))).1,
      (a.apply ((v.1 : ℚ), (v.2.1 : ℚ), (v.2.2 : ℚ))).2.1,
      (a.apply ((v.1 : ℚ), (v.2.1 : ℚ), (v.2.2 : ℚ))).2.1,
      (a.apply ((v.1 : ℚ), (v.2.1 : ℚ), (v.2.2 : ℚ))).2.2,
      (a.apply ((v.1 : ℚ), (v.2.1 : ℚ), (v.2.2 : ℚ))).2.2⟩ := by
    rw [get_mask_bounds, hsv] at hmb
    simp only [List.map_cons, List.map_nil] at hmb
    injection hmb with hmb
    exact hmb.symm
  subst hmb2
  refine ⟨⟨rfl, rfl, rfl⟩, ?_, ?_, ?_⟩ <;> intro hpos <;> simpa using hpos

/-- C6 counterexample: a 1x1x1 masked volume whose single voxel is valid.
The registered mask box coincides with the full-volume box (both are the
degenerate point box), so the registered entry is not strictly smaller
than the full-volume bounding box. -/
theorem plot_map_masked_degenerate_cex :
    validVoxels (1, 1, 1) (fun i j k => !((fun _ _ _ => false : ℕ → ℕ → ℕ → Bool) i j k))
        = [(0, 0, 0)] ∧
    entry_bounds ⟨(1, 1, 1), some (fun _ _ _ => false)⟩ idAffine =
      .ok (get_bounds (1, 1, 1) idAffine) ∧
    get_bounds (1, 1, 1) idAffine = ⟨0, 0, 0, 0, 0, 0⟩ :=
  ⟨by decide, by decide, by decide⟩

/-- C6 witness: the masked 4x4x4 volume with single valid voxel (1, 2, 3),
identity affine, cut coordinates (1, 2, 3). -/
theorem plot_map_masked_registers_tight_bounds_witness :
    get_mask_bounds mMap.shape (fun i j k => !(mMask i j k)) idAffine =
        .ok ⟨1, 1, 2, 2, 3, 3⟩ ∧
    ((plot_map wState mMap idAffine).1.object_bounds View.x =
        wState.object_bounds View.x ++ [⟨1, 1, 3, 3⟩] ∧
     (plot_map wState mMap idAffine).1.object_bounds View.y =
        wState.object_bounds View.y ++ [⟨2, 2, 3, 3⟩] ∧
     (plot_map wState mMap idAffine).1.object_bounds View.z =
        wState.object_bounds View.z ++ [⟨1, 1, 2, 2⟩]) ∧
    (plot_map wState mMap idAffine).2.1.map ImshowCmd.extent =
      [((get_bounds mMap.shape idAffine).xmin, (get_bounds mMap.shape idAffine).xmax,
        (get_bounds mMap.shape idAffine).zmin, (get_bounds mMap.shape idAffine).zmax),
       ((get_bounds mMap.shape idAffine).ymin, (get_bounds mMap.shape idAffine).ymax,
        (get_bounds mMap.shape idAffine).zmin, (get_bounds mMap.shape idAffine).zmax),
       ((get_bounds mMap.shape idAffine).xmin, (get_bounds mMap.shape idAffine).xmax,
        (get_bounds mMap.shape idAffine).ymin, (get_bounds mMap.shape idAffine).ymax)] ∧
    (∀ v : ℕ × ℕ × ℕ,
      validVoxels mMap.shape (fun i j k => !(mMask i j k)) = [v] →
      (((1 : ℚ) = 1 ∧ (2 : ℚ) = 2 ∧ (3 : ℚ) = 3) ∧
       (0 < (get_bounds mMap.shape idAffine).xmax - (get_bounds mMap.shape idAffine).xmin →
         (1 : ℚ) - 1 < (get_bounds mMap.shape idAffine).xmax -
           (get_bounds mMap.shape idAffine).xmin) ∧
       (0 < (get_bounds mMap.shape idAffine).ymax - (get_bounds mMap.shape idAffine).ymin →
         (2 : ℚ) - 2 < (get_bounds mMap.shape idAffine).ymax -
           (get_bounds mMap.shape idAffine).ymin) ∧
       (0 < (get_bounds mMap.shape idAffine).zmax - (get_bounds mMap.shape idAffine).zmin →
         (3 : ℚ) - 3 < (get_bounds mMap.shape idAffine).zmax -
           (get_bounds mMap.shape idAffine).zmin))) := by
  have h := plot_map_masked_registers_tight_bounds wState mMap idAffine idAffine mMask
    ⟨1, 1, 2, 2, 3, 3⟩ 1 2 3 rfl (by decide) (by decide) (by decide)
    (by decide) (by decide) (by decide)
  exact ⟨by decide, h.1, h.2.1, h.2.2⟩

/-- A state whose stored cut coordinate x = 5 lies outside a 2x2x2 grid. -/
def s8 : OrthoState where
  rect := (0, 0, 1, 1)
  cut_coords := (5, 1, 1)
  object_bounds := fun _ => []

/-- An unmasked 2x2x2 volume. -/
def m8 : NdMap := ⟨(2, 2, 2), none⟩

/-- C8 counterexample: with the identity affine and cut coordinates
(5, 1, 1) on a 2x2x2 volume, the x view's slice index 1 is valid but the
y view's slice index 5 is out of range, so plot_map fails — yet the x
view's content-bounds record has already been appended to, so a failed
call does not leave all three records as they were. -/
theorem plot_map_partial_mutation_cex :
    (plot_map s8 m8 idAffine).2.2 = some .indexError ∧
    (plot_map s8 m8 idAffine).1.object_bounds View.x ≠ s8.object_bounds View.x :=
  ⟨by decide, by decide⟩

/-- C8 amended: a failed plot_map call leaves the axial (z) view's record
untouched and changes each record at most by appending the single entry of
this call; failures raised before the first view is rendered — a singular
affine or a failing bounds computation — leave the whole state, and hence
all three records, exactly as before, but a failure at a later view's
render leaves the earlier views' appended entries in place. -/
theorem plot_map_failure_bounds (s : OrthoState) (m : NdMap) (a : Affine) (err : PyError)
    (herr : (plot_map s m a).2.2 = some err) :
    (plot_map s m a).1.object_bounds View.z = s.object_bounds View.z ∧
    (∀ v : View, (plot_map s m a).1.object_bounds v = s.object_bounds v ∨
       ∃ b : Entry, (plot_map s m a).1.object_bounds v = s.object_bounds v ++ [b]) ∧
    ((∃ e, a.inv = .error e) ∨ (∃ e, entry_bounds m a = .error e) →
      (plot_map s m a).1 = s) := by
  cases hinv : a.inv with
  | error e =>
    have hres : plot_map s m a = (s, [], some e) := by simp [plot_map, hinv]
    rw [hres]
    exact ⟨rfl, fun _ => Or.inl rfl, fun _ => rfl⟩
  | ok ainv =>
    cases heb : entry_bounds m a with
    | error e =>
      have hres : plot_map s m a = (s, [], some e) := by simp [plot_map, hinv, heb]
      rw [hres]
      exact ⟨rfl, fun _ => Or.inl rfl, fun _ => rfl⟩
    | ok eb =>
      have hpre : ∀ {p : Prop},
          (∃ e, (Except.ok ainv : Except PyError Affine) = Except.error e) ∨
            (∃ e, (Except.ok eb : Except PyError Bounds3) = Except.error e) → p := by
        rintro p (⟨e, he⟩ | ⟨e, he⟩) <;> exact Except.noConfusion he
      by_cases hy : idxOK (cutIndices s.cut_coords ainv).2.1 m.shape.2.1 = true
      case neg =>
        have hres : plot_map s m a = (s, [], some .indexError) := by
          simp [plot_map, hinv, heb, hy]
        rw [hres]
        exact ⟨rfl, fun _ => Or.inl rfl, fun h => hpre h⟩
      case pos =>
        by_cases hx : idxOK (cutIndices s.cut_coords ainv).1 m.shape.1 = true
        case neg =>
          have hres : (plot_map s m a).1 =
              appendBounds s View.x ⟨eb.xmin, eb.xmax, eb.zmin, eb.zmax⟩ := by
            simp [plot_map, hinv, heb, hy, hx]
          rw [hres]
          refine ⟨by simp [appendBounds], ?_, fun h => hpre h⟩
          intro v
          by_cases hv : v = View.x
          · subst hv
            exact Or.inr ⟨⟨eb.xmin, eb.xmax, eb.zmin, eb.zmax⟩, by simp [appendBounds]⟩
          · exact Or.inl (by simp [appendBounds, hv])
        case pos =>
          by_cases hz : idxOK (cutIndices s.cut_coords ainv).2.2 m.shape.2.2 = true
          case pos =>
            have hnone : (plot_map s m a).2.2 = none := by
              simp [plot_map, hinv, heb, hy, hx, hz]
            rw [hnone] at herr
            exact Option.noConfusion herr
          case neg =>
            have hres : (plot_map s m a).1 =
                appendBounds (appendBounds s View.x ⟨eb.xmin, eb.xmax, eb.zmin, eb.zmax⟩)
                  View.y ⟨eb.ymin, eb.ymax, eb.zmin, eb.zmax⟩ := by
              simp [plot_map, hinv, heb, hy, hx, hz]
            rw [hres]
            refine ⟨by simp [appendBounds], ?_, fun h => hpre h⟩
            intro v
            cases v with
            | x =>
              exact Or.inr ⟨⟨eb.xmin, eb.xmax, eb.zmin, eb.zmax⟩, by simp [appendBounds]⟩
            | y =>
              exact Or.inr ⟨⟨eb.ymin, eb.ymax, eb.zmin, eb.zmax⟩, by simp [appendBounds]⟩
            | z => exact Or.inl (by simp [appendBounds])

/-- C8 amended witness: the failing call of the counterexample input. -/
theorem plot_map_failure_bounds_witness :
    (plot_map s8 m8 idAffine).2.2 = some PyError.indexError ∧
    ((plot_map s8 m8 idAffine).1.object_bounds View.z = s8.object_bounds View.z ∧
     (∀ v : View, (plot_map s8 m8 idAffine).1.object_bounds v = s8.object_bounds v ∨
        ∃ b : Entry, (plot_map s8 m8 idAffine).1.object_bounds v =
          s8.object_bounds v ++ [b]) ∧
     ((∃ e, idAffine.inv = .error e) ∨ (∃ e, entry_bounds m8 idAffine = .error e) →
       (plot_map s8 m8 idAffine).1 = s8)) :=
  ⟨by decide, plot_map_failure_bounds s8 m8 idAffine PyError.indexError (by decide)⟩
